import Mathlib

/-!
# Verification of `mongodb-core` single-server topology (`src/lib/topologies/server.js`)

This file shallowly embeds the data model and operations of the `Server`
implementation:

* the `Callbacks` registry (an `EventEmitter` used as a request-id keyed
  one-shot continuation store, with a deferred bulk `flush`),
* the connection-lifecycle machine (`connect`, `reconnectServer`, the four
  terminal-failure handlers `errorHandler` / `timeoutHandler` / `closeHandler`
  / `fatalErrorHandler`, `destroy`, `isConnected`),
* the capability negotiation (`connectHandler`, `notifyStrategies`,
  `applyAuthentications`),
* command dispatch (`Server.command`) and the write conveniences
  (`executeWrite`, `insert`, `update`, `remove`).

The connection pool (`../connection/pool`) is not part of the provided
sources; it is an external collaborator whose interface behaviour
(`connect` / `destroy` / `isConnected` / events) is modelled from the spec
where a claim depends on it.
-/

namespace MongoCore

/-! ## Callback registry (`Callbacks`, server.js lines 20-42)

`Callbacks` inherits from Node's `EventEmitter`.  The server registers each
command continuation with `callbacks.once(query.requestId, fn)` (line 412),
delivers a wire response with `callbacks.emit(response.responseTo, null,
response)` (line 180, `messageHandler`), and on connection failure calls
`callbacks.flush(err)`, which for every event key currently present in
`this._events` schedules — via `process.nextTick` — an
`emit(id, err, null)` (lines 28-39).

We model the registry as a trace machine.  Each `once` registration gets a
fresh `token` identifying that particular continuation (EventEmitter keeps a
list of listeners per event name, so the same request id can hold several).
`emit` invokes every listener currently stored under the id exactly once and
removes them (that is `once` semantics); invocations are recorded in `log`.
`flush` only *schedules* emits: the deferred queue `deferredFlush` holds one
entry per distinct pending event key, and a separate `tick` step performs the
actual emit, mirroring `process.nextTick`. -/

/-- One listener entry of the `Callbacks` emitter: the event name is the
wire-protocol request id, `token` identifies this particular registered
continuation. -/
structure Registration where
  id : Nat
  token : Nat
  deriving DecidableEq, Repr

/-- State of the `Callbacks` registry together with the `process.nextTick`
queue of emits scheduled by `flush`, and a log of continuation invocations
`(token, none ↦ wire response, some e ↦ flush error e)`. -/
structure RegState where
  pending : List Registration := []
  nextToken : Nat := 0
  deferredFlush : List (Nat × String) := []
  log : List (Nat × Option String) := []
  deriving Repr

/-- `callbacks.once(requestId, fn)` (server.js line 412): `EventEmitter.once`
appends a one-shot listener for the event; it performs no duplicate check and
never fails. -/
def registerOnce (st : RegState) (id : Nat) : RegState :=
  { st with
    pending := st.pending ++ [⟨id, st.nextToken⟩]
    nextToken := st.nextToken + 1 }

/-- `callbacks.emit(id, payload)`: invokes every listener stored under `id`
exactly once and (because each was registered with `once`) removes them; with
no listener for `id` the emit is a no-op. -/
def emitOn (st : RegState) (id : Nat) (payload : Option String) : RegState :=
  { st with
    pending := st.pending.filter (fun r => r.id ≠ id)
    log := st.log ++ (st.pending.filter (fun r => r.id = id)).map
      (fun r => (r.token, payload)) }

/-- `messageHandler` (line 180): `callbacks.emit(response.responseTo, null,
response)`. -/
def deliverResponse (st : RegState) (responseTo : Nat) : RegState :=
  emitOn st responseTo none

/-- `Callbacks.flush(err)` (lines 28-39): for every event key currently in
`this._events` (the distinct pending ids), schedule via `process.nextTick` an
`emit(id, err, null)`. -/
def flushCall (st : RegState) (err : String) : RegState :=
  { st with
    deferredFlush :=
      st.deferredFlush ++ ((st.pending.map Registration.id).dedup.map
        (fun i => (i, err))) }

/-- Run one `process.nextTick` callback scheduled by `flush`: emit the queued
`(id, err)` against the listeners present at *that* moment. -/
def runTick (st : RegState) : RegState :=
  match st.deferredFlush with
  | [] => st
  | (i, e) :: rest => emitOn { st with deferredFlush := rest } i (some e)

/-- Externally visible registry events: a registration, a wire response, a
bulk-failure flush, one deferred-emit tick. -/
inductive REv where
  | reg (id : Nat)
  | resp (id : Nat)
  | flush (err : String)
  | tick
  deriving DecidableEq, Repr

/-- One registry step. -/
def rstep (st : RegState) : REv → RegState
  | .reg id => registerOnce st id
  | .resp id => deliverResponse st id
  | .flush err => flushCall st err
  | .tick => runTick st

/-- Run a list of registry events. -/
def rrun (st : RegState) (evs : List REv) : RegState :=
  evs.foldl rstep st

/-- Number of times the continuation identified by `t` has been invoked. -/
def invocations (st : RegState) (t : Nat) : Nat :=
  (st.log.filter (fun p => p.1 = t)).length

/-- The registry's structural invariant: pending tokens are below the token
counter and pairwise distinct, logged tokens are below the counter and
pairwise distinct, and no token is both pending and logged. -/
def RegInv (st : RegState) : Prop :=
  (∀ r ∈ st.pending, r.token < st.nextToken) ∧
  (∀ p ∈ st.log, p.1 < st.nextToken) ∧
  (st.pending.map Registration.token).Nodup ∧
  (st.log.map Prod.fst).Nodup ∧
  (∀ r ∈ st.pending, ∀ p ∈ st.log, r.token ≠ p.1)

/-- The empty registry. -/
def regInit : RegState := {}

theorem regInv_init : RegInv regInit := by
  constructor
  · intro r hr; simp [regInit] at hr
  refine ⟨?_, ?_, ?_, ?_⟩ <;> simp [regInit]

theorem rrun_nil (st : RegState) : rrun st [] = st := rfl

theorem rrun_cons (st : RegState) (e : REv) (evs : List REv) :
    rrun st (e :: evs) = rrun (rstep st e) evs := rfl

theorem rrun_append (st : RegState) (l₁ l₂ : List REv) :
    rrun st (l₁ ++ l₂) = rrun (rrun st l₁) l₂ :=
  List.foldl_append _ _ _ _

theorem regInv_registerOnce {st : RegState} (h : RegInv st) (id : Nat) :
    RegInv (registerOnce st id) := by
  obtain ⟨h1, h2, h3, h4, h5⟩ := h
  refine ⟨?_, ?_, ?_, h4, ?_⟩
  · intro r hr
    simp only [registerOnce, List.mem_append, List.mem_singleton] at hr
    rcases hr with hr | rfl
    · exact Nat.lt_succ_of_lt (h1 r hr)
    · exact Nat.lt_succ_self _
  · intro p hp
    exact Nat.lt_succ_of_lt (h2 p hp)
  · simp only [registerOnce, List.map_append, List.map_cons, List.map_nil]
    rw [List.nodup_append]
    refine ⟨h3, List.nodup_singleton _, ?_⟩
    intro t ht ht'
    simp only [List.mem_singleton] at ht'
    subst ht'
    obtain ⟨r, hr, hrt⟩ := List.mem_map.mp ht
    exact absurd hrt (Nat.ne_of_lt (h1 r hr))
  · intro r hr p hp
    simp only [registerOnce, List.mem_append, List.mem_singleton] at hr
    rcases hr with hr | rfl
    · exact h5 r hr p hp
    · exact fun hc => absurd hc.symm (Nat.ne_of_lt (h2 p hp))

theorem regInv_emitOn {st : RegState} (h : RegInv st) (id : Nat)
    (payload : Option String) : RegInv (emitOn st id payload) := by
  obtain ⟨h1, h2, h3, h4, h5⟩ := h
  have hsub : (st.pending.filter (fun r => r.id ≠ id)).Sublist st.pending :=
    List.filter_sublist _
  have hsubEq : (st.pending.filter (fun r => r.id = id)).Sublist st.pending :=
    List.filter_sublist _
  have hinj := List.inj_on_of_nodup_map h3
  refine ⟨?_, ?_, ?_, ?_, ?_⟩
  · intro r hr
    exact h1 r (hsub.mem hr)
  · intro p hp
    simp only [emitOn, List.mem_append] at hp
    rcases hp with hp | hp
    · exact h2 p hp
    · obtain ⟨r, hr, rfl⟩ := List.mem_map.mp hp
      exact h1 r (hsubEq.mem hr)
  · exact List.Nodup.sublist (hsub.map _) h3
  · simp only [emitOn, List.map_append, List.map_map]
    rw [List.nodup_append]
    refine ⟨h4, ?_, ?_⟩
    · have : ((st.pending.filter (fun r => r.id = id)).map
          (fun r => ((fun r => (r.token, payload)) r).1)).Nodup := by
        simp only [Function.comp]
        exact List.Nodup.sublist (hsubEq.map _) h3
      simpa using this
    · intro t ht ht'
      obtain ⟨p, hp, rfl⟩ := List.mem_map.mp ht
      simp only [List.mem_map, Function.comp] at ht'
      obtain ⟨r, hr, hrt⟩ := ht'
      exact h5 r (hsubEq.mem hr) p hp (by simpa using hrt)
  · intro r hr p hp
    have hrMem : r ∈ st.pending := hsub.mem hr
    have hrId : r.id ≠ id := by
      have := (List.mem_filter.mp hr).2
      simpa using this
    simp only [emitOn, List.mem_append] at hp
    rcases hp with hp | hp
    · exact h5 r hrMem p hp
    · obtain ⟨r', hr', rfl⟩ := List.mem_map.mp hp
      intro hc
      have : r = r' := hinj hrMem (hsubEq.mem hr') hc
      subst this
      have hrId' : r.id = id := by
        have := (List.mem_filter.mp hr').2
        simpa using this
      exact hrId hrId'

theorem regInv_rstep {st : RegState} (h : RegInv st) (e : REv) :
    RegInv (rstep st e) := by
  cases e with
  | reg id => exact regInv_registerOnce h id
  | resp id => exact regInv_emitOn h id none
  | flush err =>
      obtain ⟨h1, h2, h3, h4, h5⟩ := h
      exact ⟨h1, h2, h3, h4, h5⟩
  | tick =>
      cases hd : st.deferredFlush with
      | nil => simpa [rstep, runTick, hd] using h
      | cons ie rest =>
          obtain ⟨h1, h2, h3, h4, h5⟩ := h
          have h' : RegInv { st with deferredFlush := rest } := ⟨h1, h2, h3, h4, h5⟩
          simpa [rstep, runTick, hd] using regInv_emitOn h' ie.1 (some ie.2)

theorem regInv_rrun {st : RegState} (h : RegInv st) (evs : List REv) :
    RegInv (rrun st evs) := by
  induction evs generalizing st with
  | nil => exact h
  | cons e evs ih => exact ih (regInv_rstep h e)

/-! ### Counting lemmas: exactly-once delivery -/

theorem filter_fst_length_le_one {α : Type} {l : List (Nat × α)} {t : Nat}
    (h : (l.map Prod.fst).Nodup) : (l.filter (fun p => p.1 = t)).length ≤ 1 := by
  induction l with
  | nil => simp
  | cons a l ih =>
      simp only [List.map_cons, List.nodup_cons] at h
      by_cases ha : a.1 = t
      · have hnil : l.filter (fun p => p.1 = t) = [] := by
          rw [List.filter_eq_nil_iff]
          intro b hb hbt
          exact h.1 (ha ▸ (by simpa using hbt) ▸ List.mem_map_of_mem Prod.fst hb)
        simp [List.filter_cons, ha, hnil]
      · simpa [List.filter_cons, ha] using ih h.2

theorem filter_fst_length_pos {α : Type} {l : List (Nat × α)} {t : Nat}
    (h : t ∈ l.map Prod.fst) : 0 < (l.filter (fun p => p.1 = t)).length := by
  obtain ⟨p, hp, rfl⟩ := List.mem_map.mp h
  have : p ∈ l.filter (fun p' => p'.1 = p.1) := List.mem_filter.mpr ⟨hp, by simp⟩
  exact List.length_pos.mpr (fun hnil => by simp [hnil] at this)

/-- In any state satisfying the invariant, no continuation has been invoked
more than once. -/
theorem invocations_le_one {st : RegState} (h : RegInv st) (t : Nat) :
    invocations st t ≤ 1 :=
  filter_fst_length_le_one h.2.2.2.1

/-- A continuation that appears in the log of an invariant state has been
invoked exactly once. -/
theorem invocations_eq_one {st : RegState} (h : RegInv st) {t : Nat}
    (ht : t ∈ st.log.map Prod.fst) : invocations st t = 1 :=
  Nat.le_antisymm (invocations_le_one h t) (filter_fst_length_pos ht)

/-- The invocation log only ever grows. -/
theorem logToken_mono_rstep {st : RegState} {t : Nat}
    (h : t ∈ st.log.map Prod.fst) (e : REv) : t ∈ (rstep st e).log.map Prod.fst := by
  cases e with
  | reg id => exact h
  | resp id => simp only [rstep, deliverResponse, emitOn, List.map_append,
      List.mem_append]; exact Or.inl h
  | flush err => exact h
  | tick =>
      cases hd : st.deferredFlush with
      | nil => simpa [rstep, runTick, hd] using h
      | cons ie rest =>
          simp only [rstep, runTick, hd, emitOn, List.map_append, List.mem_append]
          exact Or.inl h

theorem logToken_mono_rrun {st : RegState} {t : Nat}
    (h : t ∈ st.log.map Prod.fst) (evs : List REv) :
    t ∈ (rrun st evs).log.map Prod.fst := by
  induction evs generalizing st with
  | nil => exact h
  | cons e evs ih => exact ih (logToken_mono_rstep h e)

/-! ### Coverage: a flush guarantees eventual delivery -/

/-- After a flush has been called while `r` was pending, `r` is *covered*:
its continuation has either already been invoked, or `r` is still pending and
a deferred flush emit for its request id is still queued. -/
def covered (st : RegState) (r : Registration) : Prop :=
  r.token ∈ st.log.map Prod.fst ∨
    (r ∈ st.pending ∧ r.id ∈ st.deferredFlush.map Prod.fst)

theorem covered_of_flush {st : RegState} {r : Registration}
    (hr : r ∈ st.pending) (err : String) : covered (flushCall st err) r := by
  refine Or.inr ⟨hr, ?_⟩
  simp only [flushCall, List.map_append, List.mem_append, List.map_map]
  refine Or.inr ?_
  have : r.id ∈ (st.pending.map Registration.id).dedup :=
    List.mem_dedup.mpr (List.mem_map_of_mem Registration.id hr)
  simpa [Function.comp] using List.mem_map_of_mem (fun i => i) this

theorem emitOn_logs_pending {st : RegState} {r : Registration}
    (hr : r ∈ st.pending) (payload : Option String) :
    r.token ∈ (emitOn st r.id payload).log.map Prod.fst := by
  simp only [emitOn, List.map_append, List.mem_append, List.map_map]
  refine Or.inr ?_
  have hmem : r ∈ st.pending.filter (fun r' => r'.id = r.id) :=
    List.mem_filter.mpr ⟨hr, by simp⟩
  simpa [Function.comp] using List.mem_map_of_mem (fun r' => r'.token) hmem

theorem covered_rstep {st : RegState} {r : Registration}
    (h : covered st r) (e : REv) : covered (rstep st e) r := by
  rcases h with h | ⟨hp, hd⟩
  · exact Or.inl (logToken_mono_rstep h e)
  cases e with
  | reg id =>
      exact Or.inr ⟨List.mem_append.mpr (Or.inl hp), hd⟩
  | resp id =>
      by_cases hid : id = r.id
      · subst hid
        exact Or.inl (emitOn_logs_pending hp none)
      · refine Or.inr ⟨?_, hd⟩
        exact List.mem_filter.mpr
          ⟨hp, by simpa using fun h : r.id = id => hid h.symm⟩
  | flush err =>
      refine Or.inr ⟨hp, ?_⟩
      have hfc : (flushCall st err).deferredFlush =
          st.deferredFlush ++ ((st.pending.map Registration.id).dedup.map
            (fun i => (i, err))) := rfl
      rw [rstep, hfc, List.map_append]
      exact List.mem_append.mpr (Or.inl hd)
  | tick =>
      cases hdq : st.deferredFlush with
      | nil => simp [hdq] at hd
      | cons ie rest =>
          simp only [hdq, List.map_cons, List.mem_cons] at hd
          by_cases hie : ie.1 = r.id
          · have hp' : r ∈ (RegState.mk st.pending st.nextToken rest st.log).pending := hp
            have := @emitOn_logs_pending { st with deferredFlush := rest }
              r hp (some ie.2)
            refine Or.inl ?_
            simpa [rstep, runTick, hdq, hie] using this
          · rcases hd with hd | hd
            · exact absurd hd.symm hie
            · refine Or.inr ⟨?_, ?_⟩
              · simp only [rstep, runTick, hdq, emitOn]
                exact List.mem_filter.mpr
                  ⟨hp, by simpa using fun h : r.id = ie.1 => hie h.symm⟩
              · simpa [rstep, runTick, hdq, emitOn] using hd

theorem covered_rrun {st : RegState} {r : Registration}
    (h : covered st r) (evs : List REv) : covered (rrun st evs) r := by
  induction evs generalizing st with
  | nil => exact h
  | cons e evs ih => exact ih (covered_rstep h e)

/-- C1: every continuation registered in the `Callbacks` registry under a
request identifier is invoked exactly once — in any interleaving of
responses, flushes and deferred flush ticks it is never invoked twice; a
matching wire response invokes it (exactly once), and a registry flush, once
its deferred `process.nextTick` emits have drained, also invokes it exactly
once. -/
theorem C1_callback_exactly_once
    (evs₁ evs₂ evs : List REv) (r : Registration) (err : String)
    (hr : r ∈ (rrun regInit evs₁).pending) :
    invocations (rrun regInit evs) r.token ≤ 1 ∧
    invocations (rrun regInit (evs₁ ++ REv.resp r.id :: evs₂)) r.token = 1 ∧
    ((rrun regInit (evs₁ ++ REv.flush err :: evs₂)).deferredFlush = [] →
      invocations (rrun regInit (evs₁ ++ REv.flush err :: evs₂)) r.token = 1) := by
  have hinv₁ : RegInv (rrun regInit evs₁) := regInv_rrun regInv_init evs₁
  refine ⟨invocations_le_one (regInv_rrun regInv_init evs) r.token, ?_, ?_⟩
  · rw [rrun_append, rrun_cons]
    have hlog : r.token ∈ (rstep (rrun regInit evs₁) (REv.resp r.id)).log.map
        Prod.fst := emitOn_logs_pending hr none
    have hfin := logToken_mono_rrun hlog evs₂
    exact invocations_eq_one
      (regInv_rrun (regInv_rstep hinv₁ _) evs₂) hfin
  · intro hdrained
    rw [rrun_append, rrun_cons] at hdrained ⊢
    have hcov : covered (rstep (rrun regInit evs₁) (REv.flush err)) r :=
      covered_of_flush hr err
    have hcov' := covered_rrun hcov evs₂
    rcases hcov' with hlog | ⟨_, hdq⟩
    · exact invocations_eq_one
        (regInv_rrun (regInv_rstep hinv₁ _) evs₂) hlog
    · rw [hdrained] at hdq
      simp at hdq

theorem C1_callback_exactly_once_witness :
    ((⟨7, 0⟩ : Registration) ∈ (rrun regInit [REv.reg 7]).pending) ∧
    (invocations (rrun regInit [REv.reg 7]) 0 ≤ 1 ∧
     invocations (rrun regInit ([REv.reg 7] ++ REv.resp 7 :: [REv.tick])) 0 = 1 ∧
     ((rrun regInit ([REv.reg 7] ++ REv.flush "boom" :: [REv.tick])).deferredFlush
        = [] →
       invocations (rrun regInit ([REv.reg 7] ++ REv.flush "boom" :: [REv.tick]))
         0 = 1)) :=
  ⟨by decide,
   C1_callback_exactly_once [REv.reg 7] [REv.tick] [REv.reg 7] ⟨7, 0⟩ "boom"
     (by decide)⟩

/-- C8 counterexample: registering a second continuation under a request
identifier that is already pending does *not* fail with a
duplicate-registration error and does *not* leave the registry unchanged:
`EventEmitter.once` appends a second listener, so after two registrations
under id 5 the registry holds two pending continuations, and a single
matching response invokes both of them. -/
theorem C8_counterexample :
    (rrun regInit [REv.reg 5, REv.reg 5]).pending =
      [⟨5, 0⟩, ⟨5, 1⟩] ∧
    invocations (rrun regInit [REv.reg 5, REv.reg 5, REv.resp 5]) 0 = 1 ∧
    invocations (rrun regInit [REv.reg 5, REv.reg 5, REv.resp 5]) 1 = 1 := by
  decide

/-- C8 (amended): registering a continuation under an already-pending request
identifier does not fail: the new continuation is appended after the existing
entries (which are left in place), and a subsequent matching response invokes
the pre-existing continuation and the new one exactly once each. -/
theorem C8_amended_duplicate_registration_appends
    (st : RegState) (r : Registration) (h : RegInv st) (hr : r ∈ st.pending) :
    (registerOnce st r.id).pending = st.pending ++ [⟨r.id, st.nextToken⟩] ∧
    r ∈ (registerOnce st r.id).pending ∧
    invocations (deliverResponse (registerOnce st r.id) r.id) r.token = 1 ∧
    invocations (deliverResponse (registerOnce st r.id) r.id) st.nextToken = 1 := by
  have hinv' : RegInv (registerOnce st r.id) := regInv_registerOnce h r.id
  have hrmem : r ∈ (registerOnce st r.id).pending :=
    List.mem_append.mpr (Or.inl hr)
  have hnew : (⟨r.id, st.nextToken⟩ : Registration) ∈
      (registerOnce st r.id).pending :=
    List.mem_append.mpr (Or.inr (List.mem_singleton.mpr rfl))
  have hinvResp : RegInv (deliverResponse (registerOnce st r.id) r.id) :=
    regInv_emitOn hinv' r.id none
  refine ⟨rfl, hrmem, ?_, ?_⟩
  · exact invocations_eq_one hinvResp (emitOn_logs_pending hrmem none)
  · exact invocations_eq_one hinvResp
      (@emitOn_logs_pending (registerOnce st r.id) ⟨r.id, st.nextToken⟩
        hnew none)

theorem C8_amended_duplicate_registration_appends_witness :
    RegInv (RegState.mk [⟨5, 0⟩] 1 [] []) ∧
    ((⟨5, 0⟩ : Registration) ∈ (RegState.mk [⟨5, 0⟩] 1 [] []).pending) ∧
    ((registerOnce (RegState.mk [⟨5, 0⟩] 1 [] []) 5).pending =
        (RegState.mk [⟨5, 0⟩] 1 [] []).pending ++ [⟨5, 1⟩] ∧
      (⟨5, 0⟩ : Registration) ∈
        (registerOnce (RegState.mk [⟨5, 0⟩] 1 [] []) 5).pending ∧
      invocations
        (deliverResponse (registerOnce (RegState.mk [⟨5, 0⟩] 1 [] []) 5) 5) 0 = 1 ∧
      invocations
        (deliverResponse (registerOnce (RegState.mk [⟨5, 0⟩] 1 [] []) 5) 5) 1 = 1) :=
  ⟨by unfold RegInv; decide, by decide,
   C8_amended_duplicate_registration_appends (RegState.mk [⟨5, 0⟩] 1 [] [])
     ⟨5, 0⟩ (by unfold RegInv; decide) (by decide)⟩

/-! ## Connection lifecycle (`Server`, server.js lines 59-309)

The server owns one connection pool.  `connect` (lines 274-291) creates a
pool and attaches the full handler surface; the four terminal-failure
handlers (lines 183-233) destroy the pool, flush the callback registry and
optionally schedule `reconnectServer`; `reconnectServer` (lines 110-173)
retries with a probe pool whose failure path decrements
`currentReconnectRetry`.

The pool itself (`../connection/pool`) is not among the provided sources.
Modelled from the spec: per §6 the pool exposes `connect()`, `destroy()`,
`isConnected()` and emits `connect` / `error` / `close` / `timeout` /
`parseError`; we model its observable state as a single Boolean that is
`false` from creation and after `destroy()` and becomes `true` exactly when
its `connect` event fires.  One terminal signal is modelled per failure
(a real socket teardown may fire several of the `once` probe listeners; the
claims quantify over failure signals one at a time). -/

/-- The four terminal pool signals, in the order the listener wiring maps
them to handlers: `error → errorHandler`, `timeout → timeoutHandler`,
`close → closeHandler`, `parseError → fatalErrorHandler`. -/
inductive FailKind where
  | errK
  | timeoutK
  | closeK
  | parseErrorK
  deriving DecidableEq, Repr

/-- Events the `Server` emits to its observers (`self.emit(...)`). -/
inductive SEvent where
  | errorE (msg : String)
  | timeoutE (err : String)
  | closeE (err : String)
  | connectE
  | reconnectE
  deriving DecidableEq, Repr

/-- Externally visible side effects of one lifecycle step. -/
inductive Act where
  | notifyStrategies (op : String)
  | destroyPool
  | flushCallbacks (msg : String)
  | emitEv (e : SEvent)
  | scheduleReconnect
  deriving DecidableEq, Repr

/-- Server configuration after the constructor's defaulting (lines 71-76):
`reconnect` defaults `true`, `reconnectTries` defaults 30 (via `||`, so a
falsy value also yields 30), `emitError` defaults `false`;
`hasStrategies` records whether `readPreferenceStrategies` is non-null. -/
structure Config where
  host : String
  port : Nat
  reconnect : Bool
  reconnectTries : Int
  emitError : Bool
  hasStrategies : Bool
  deriving DecidableEq, Repr

/-- `serverDetails.name = f("%s:%s", options.host, options.port)` (line 102). -/
def Config.name (c : Config) : String := c.host ++ ":" ++ toString c.port

/-- Which listener set is currently attached to the pool: the full handler
surface installed by `connect` (lines 283-288) and re-installed after a
successful reconnect (lines 140-144); the probe `once`-listeners installed
by `reconnectServer` (lines 166-169); or none (after `destroy`, lines
297-299, which removes all listeners). -/
inductive LSet where
  | mainL
  | probeL
  | noneL
  deriving DecidableEq, Repr

/-- Lifecycle state: the pool handle (`none` before the first pool is ever
created; `some c` with `c` the pool's connected flag), the attached listener
set, `currentReconnectRetry`, and whether a `setTimeout(reconnectServer)` is
pending. -/
structure MState where
  pool : Option Bool
  listeners : LSet
  retry : Int
  timerPending : Bool
  deriving DecidableEq, Repr

/-- `Server.isConnected` (lines 306-309): `if(pool) return pool.isConnected();
return false`. -/
def isConnected (st : MState) : Bool :=
  match st.pool with
  | some c => c
  | none => false

/-- `errorHandler` (lines 183-194): notify strategies of `'error'`, destroy,
flush with `server <name> received an error <err>`, emit `error` only when
`emitError` is configured, schedule reconnect when `reconnect` is enabled. -/
def errorHandler (cfg : Config) (err : String) (st : MState) : MState × List Act :=
  ({ st with
      pool := st.pool.map (fun _ => false)
      listeners := .noneL
      timerPending := cfg.reconnect },
   (if cfg.hasStrategies then [Act.notifyStrategies "error"] else []) ++
   [Act.destroyPool,
    Act.flushCallbacks ("server " ++ cfg.name ++ " received an error " ++ err)] ++
   (if cfg.emitError then [Act.emitEv (.errorE err)] else []) ++
   (if cfg.reconnect then [Act.scheduleReconnect] else []))

/-- `fatalErrorHandler` (lines 196-207): identical to `errorHandler` except
that the `error` event is emitted unconditionally. -/
def fatalErrorHandler (cfg : Config) (err : String) (st : MState) :
    MState × List Act :=
  ({ st with
      pool := st.pool.map (fun _ => false)
      listeners := .noneL
      timerPending := cfg.reconnect },
   (if cfg.hasStrategies then [Act.notifyStrategies "error"] else []) ++
   [Act.destroyPool,
    Act.flushCallbacks ("server " ++ cfg.name ++ " received an error " ++ err),
    Act.emitEv (.errorE err)] ++
   (if cfg.reconnect then [Act.scheduleReconnect] else []))

/-- `timeoutHandler` (lines 209-220). -/
def timeoutHandler (cfg : Config) (err : String) (st : MState) :
    MState × List Act :=
  ({ st with
      pool := st.pool.map (fun _ => false)
      listeners := .noneL
      timerPending := cfg.reconnect },
   (if cfg.hasStrategies then [Act.notifyStrategies "timeout"] else []) ++
   [Act.destroyPool,
    Act.flushCallbacks ("server " ++ cfg.name ++ " timed out"),
    Act.emitEv (.timeoutE err)] ++
   (if cfg.reconnect then [Act.scheduleReconnect] else []))

/-- `closeHandler` (lines 222-233). -/
def closeHandler (cfg : Config) (err : String) (st : MState) :
    MState × List Act :=
  ({ st with
      pool := st.pool.map (fun _ => false)
      listeners := .noneL
      timerPending := cfg.reconnect },
   (if cfg.hasStrategies then [Act.notifyStrategies "close"] else []) ++
   [Act.destroyPool,
    Act.flushCallbacks ("server " ++ cfg.name ++ " sockets closed"),
    Act.emitEv (.closeE err)] ++
   (if cfg.reconnect then [Act.scheduleReconnect] else []))

/-- Dispatch of a terminal pool signal to its handler, following the
listener wiring of lines 283-288 (and 140-144 after a reconnect). -/
def failureHandler (cfg : Config) (k : FailKind) (err : String) (st : MState) :
    MState × List Act :=
  match k with
  | .errK => errorHandler cfg err st
  | .timeoutK => timeoutHandler cfg err st
  | .closeK => closeHandler cfg err st
  | .parseErrorK => fatalErrorHandler cfg err st

/-- The probe failure path of `reconnectServer` (its local `errorHandler`,
lines 116-129): destroy the probe pool, decrement `currentReconnectRetry`;
at `<= 0` emit the terminal
`failed to connect to <host>:<port> after <reconnectTries> retries` error,
otherwise schedule another `reconnectServer` after the interval. -/
def reconnectProbeFail (cfg : Config) (st : MState) : MState × List Act :=
  let retry := st.retry - 1
  if retry ≤ 0 then
    ({ st with
        pool := st.pool.map (fun _ => false)
        listeners := .noneL
        retry := retry
        timerPending := false },
     [Act.destroyPool,
      Act.emitEv (.errorE ("failed to connect to " ++ cfg.name ++ " after " ++
        toString cfg.reconnectTries ++ " retries"))])
  else
    ({ st with
        pool := st.pool.map (fun _ => false)
        listeners := .noneL
        retry := retry
        timerPending := true },
     [Act.destroyPool, Act.scheduleReconnect])

/-- `reconnectServer` (lines 110-173) up to the point where the probe pool's
`connect()` is initiated: it first sets `currentReconnectRetry =
reconnectTries` (line 112), creates a fresh pool and attaches the probe
`once`-listeners. -/
def reconnectServer (cfg : Config) : MState :=
  { pool := some false
    listeners := .probeL
    retry := cfg.reconnectTries
    timerPending := false }

/-- Lifecycle inputs: an API `connect()` call, the pool's `connect` event, a
terminal pool signal carrying its cause, and the firing of a scheduled
reconnect timer. -/
inductive MEv where
  | apiConnect
  | poolConnectOK
  | poolFail (k : FailKind) (err : String)
  | timerFire
  deriving DecidableEq, Repr

/-- One lifecycle step. -/
def mstep (cfg : Config) (st : MState) : MEv → MState × List Act
  | .apiConnect =>
      ({ st with pool := some false, listeners := .mainL },
       if st.pool.isSome then [Act.destroyPool] else [])
  | .poolConnectOK =>
      match st.listeners with
      | .mainL => ({ st with pool := st.pool.map (fun _ => true) }, [])
      | .probeL =>
          ({ st with pool := st.pool.map (fun _ => true), listeners := .mainL },
           [Act.emitEv .reconnectE])
      | .noneL => (st, [])
  | .poolFail k err =>
      match st.listeners with
      | .mainL => failureHandler cfg k err st
      | .probeL => reconnectProbeFail cfg st
      | .noneL => (st, [])
  | .timerFire =>
      if st.timerPending then (reconnectServer cfg, []) else (st, [])

/-- Run a list of lifecycle inputs, accumulating the produced actions. -/
def mrun (cfg : Config) (st : MState) : List MEv → MState × List Act
  | [] => (st, [])
  | e :: evs =>
      let s := mstep cfg st e
      let s' := mrun cfg s.1 evs
      (s'.1, s.2 ++ s'.2)

theorem mrun_append (cfg : Config) (st : MState) (l₁ l₂ : List MEv) :
    mrun cfg st (l₁ ++ l₂) =
      ((mrun cfg (mrun cfg st l₁).1 l₂).1,
       (mrun cfg st l₁).2 ++ (mrun cfg (mrun cfg st l₁).1 l₂).2) := by
  induction l₁ generalizing st with
  | nil => simp [mrun]
  | cons e l₁ ih => simp [mrun, ih, List.append_assoc]

/-! ### C2: the bounded-retry reconnect loop -/

/-- One failed reconnect attempt as seen by the lifecycle machine: the
scheduled timer fires (running `reconnectServer`) and the probe pool then
reports a terminal signal. -/
def failCycle (k : FailKind) (err : String) : List MEv :=
  [MEv.timerFire, MEv.poolFail k err]

/-- `n` consecutive failed reconnect attempts. -/
def failCycles (k : FailKind) (err : String) : Nat → List MEv
  | 0 => []
  | n + 1 => failCycle k err ++ failCycles k err n

/-- The actions produced by `n` failed reconnect attempts when the retry
counter never reaches zero: each attempt destroys its probe pool and
schedules the next attempt. -/
def repActs : Nat → List Act
  | 0 => []
  | n + 1 => Act.destroyPool :: Act.scheduleReconnect :: repActs n

theorem emit_not_mem_repActs (e : SEvent) (n : Nat) :
    Act.emitEv e ∉ repActs n := by
  induction n with
  | zero => simp [repActs]
  | succ n ih => simp [repActs, ih]

theorem failCycle_run {cfg : Config} (h2 : 2 ≤ cfg.reconnectTries)
    (k : FailKind) (err : String) {st : MState} (hT : st.timerPending = true) :
    mrun cfg st (failCycle k err) =
      (⟨some false, .noneL, cfg.reconnectTries - 1, true⟩,
       [Act.destroyPool, Act.scheduleReconnect]) := by
  have hpos : ¬(cfg.reconnectTries - 1 ≤ 0) := by omega
  simp [failCycle, mrun, mstep, hT, reconnectServer, reconnectProbeFail, hpos]

theorem failCycles_run {cfg : Config} (h2 : 2 ≤ cfg.reconnectTries)
    (k : FailKind) (err : String) {st : MState} (hT : st.timerPending = true)
    (n : Nat) :
    mrun cfg st (failCycles k err (n + 1)) =
      (⟨some false, .noneL, cfg.reconnectTries - 1, true⟩, repActs (n + 1)) := by
  induction n generalizing st with
  | zero =>
      have := failCycle_run h2 k err hT
      simp only [failCycles, List.append_nil]
      rw [this]
      rfl
  | succ n ih =>
      have hsplit : failCycles k err (n + 2) =
          failCycle k err ++ failCycles k err (n + 1) := rfl
      rw [hsplit, mrun_append, failCycle_run h2 k err hT]
      rw [@ih ⟨some false, .noneL, cfg.reconnectTries - 1, true⟩ rfl]
      rfl

/-- C2 (refutation by evaluation): with reconnection enabled and the
default `reconnectTries = 30`, a pool whose connect attempts always fail
never exhausts the retry budget: `reconnectServer` resets
`currentReconnectRetry` to 30 at the start of *every* attempt (line 112), so
after each failure the counter is 29, a further attempt is always scheduled,
and the terminal `failed to connect to host:port after 30 retries` error is
never emitted — for any number `n + 1` of consecutive failed attempts. -/
theorem C2_reconnect_loop_never_terminal (host err : String) (port : Nat)
    (emitErr hasStrats : Bool) (k : FailKind) (n : Nat) :
    (mrun ⟨host, port, true, 30, emitErr, hasStrats⟩
        ⟨some false, .noneL, 30, true⟩ (failCycles k err (n + 1))).1 =
      ⟨some false, .noneL, 29, true⟩ ∧
    (mrun ⟨host, port, true, 30, emitErr, hasStrats⟩
        ⟨some false, .noneL, 30, true⟩ (failCycles k err (n + 1))).2 =
      repActs (n + 1) ∧
    Act.emitEv (SEvent.errorE ("failed to connect to " ++ host ++ ":" ++
        toString port ++ " after 30 retries")) ∉
      (mrun ⟨host, port, true, 30, emitErr, hasStrats⟩
        ⟨some false, .noneL, 30, true⟩ (failCycles k err (n + 1))).2 := by
  have h2 : (2 : Int) ≤ (30 : Int) := by norm_num
  have hrun := @failCycles_run
    ⟨host, port, true, 30, emitErr, hasStrats⟩ h2 k err
    ⟨some false, .noneL, 30, true⟩ rfl n
  refine ⟨?_, ?_, ?_⟩
  · rw [hrun]; norm_num
  · rw [hrun]
  · rw [hrun]
    exact emit_not_mem_repActs _ _

/-! ### C3: terminal-failure handling -/

/-- The flush message each handler passes to `callbacks.flush` (lines 189,
202, 215, 228); every one of them names the server as `host:port`. -/
def failureFlushMsg (cfg : Config) (k : FailKind) (err : String) : String :=
  match k with
  | .errK => "server " ++ cfg.name ++ " received an error " ++ err
  | .timeoutK => "server " ++ cfg.name ++ " timed out"
  | .closeK => "server " ++ cfg.name ++ " sockets closed"
  | .parseErrorK => "server " ++ cfg.name ++ " received an error " ++ err

theorem isConnected_map_false (st : MState) (l : LSet) (r : Int) (t : Bool) :
    isConnected ⟨st.pool.map (fun _ => false), l, r, t⟩ = false := by
  cases st.pool <;> rfl

theorem isConnected_step_false (cfg : Config) {st : MState} (e : MEv)
    (h : isConnected st = false) (he : e ≠ MEv.poolConnectOK) :
    isConnected (mstep cfg st e).1 = false := by
  cases e with
  | apiConnect => rfl
  | poolConnectOK => exact absurd rfl he
  | poolFail k err =>
      cases hl : st.listeners with
      | mainL =>
          cases k <;>
            simp [mstep, hl, failureHandler, errorHandler, timeoutHandler,
              closeHandler, fatalErrorHandler, isConnected_map_false]
      | probeL =>
          by_cases hr : st.retry - 1 ≤ 0 <;>
            simp [mstep, hl, reconnectProbeFail, hr, isConnected_map_false]
      | noneL => simpa [mstep, hl] using h
  | timerFire =>
      by_cases ht : st.timerPending = true
      · simp [mstep, ht, reconnectServer, isConnected]
      · simpa [mstep, ht] using h

theorem isConnected_run_false (cfg : Config) {st : MState} {evs : List MEv}
    (h : isConnected st = false) (hnoc : MEv.poolConnectOK ∉ evs) :
    isConnected (mrun cfg st evs).1 = false := by
  induction evs generalizing st with
  | nil => exact h
  | cons e evs ih =>
      simp only [List.mem_cons, not_or] at hnoc
      exact ih (isConnected_step_false cfg e h (fun hc => hnoc.1 hc.symm)) hnoc.2

theorem failureHandler_acts (cfg : Config) (k : FailKind) (err : String)
    (st : MState) :
    Act.destroyPool ∈ (failureHandler cfg k err st).2 ∧
    Act.flushCallbacks (failureFlushMsg cfg k err) ∈ (failureHandler cfg k err st).2 ∧
    (Act.scheduleReconnect ∈ (failureHandler cfg k err st).2 ↔
      cfg.reconnect = true) ∧
    (failureHandler cfg k err st).1.pool = st.pool.map (fun _ => false) ∧
    (failureHandler cfg k err st).1.listeners = .noneL := by
  cases k <;> cases hrc : cfg.reconnect <;> cases he : cfg.emitError <;>
    cases hs : cfg.hasStrategies <;>
    simp [failureHandler, errorHandler, timeoutHandler, closeHandler,
      fatalErrorHandler, failureFlushMsg, hrc, he, hs]

/-- C3: for every terminal pool signal kind received while the main handler
surface is attached (which is the case both after `connect` and after a
successful reconnect), the dispatched handler destroys the pool, flushes the
callback registry with a failure message naming the server identity and the
failure kind, and schedules a reconnect attempt iff reconnection is enabled;
afterwards `isConnected()` is false and stays false across any further
events that contain no successful pool connect; and a successful reconnect
(pool `connect` while the probe listeners are attached) re-installs the main
handler surface. -/
theorem C3_terminal_failure_dispatch (cfg : Config) (k : FailKind)
    (err : String) (st st₂ : MState) (evs : List MEv)
    (hmain : st.listeners = .mainL)
    (hnoc : MEv.poolConnectOK ∉ evs)
    (hprobe : st₂.listeners = .probeL) :
    Act.destroyPool ∈ (mstep cfg st (.poolFail k err)).2 ∧
    Act.flushCallbacks (failureFlushMsg cfg k err) ∈
      (mstep cfg st (.poolFail k err)).2 ∧
    (∃ pre post, failureFlushMsg cfg k err = pre ++ cfg.name ++ post) ∧
    (Act.scheduleReconnect ∈ (mstep cfg st (.poolFail k err)).2 ↔
      cfg.reconnect = true) ∧
    isConnected (mstep cfg st (.poolFail k err)).1 = false ∧
    isConnected (mrun cfg (mstep cfg st (.poolFail k err)).1 evs).1 = false ∧
    (mstep cfg st₂ .poolConnectOK).1.listeners = .mainL := by
  have hdisp : mstep cfg st (.poolFail k err) = failureHandler cfg k err st := by
    simp [mstep, hmain]
  obtain ⟨hd, hf, hs, hpool, _⟩ := failureHandler_acts cfg k err st
  have hconn : isConnected (mstep cfg st (.poolFail k err)).1 = false := by
    rw [hdisp]
    cases k <;>
      simp [failureHandler, errorHandler, timeoutHandler, closeHandler,
        fatalErrorHandler, isConnected_map_false]
  refine ⟨hdisp ▸ hd, hdisp ▸ hf, ?_, hdisp ▸ hs, hconn,
    isConnected_run_false cfg hconn hnoc, ?_⟩
  · cases k
    · exact ⟨"server ", " received an error " ++ err,
        String.append_assoc _ _ _⟩
    · exact ⟨"server ", " timed out", rfl⟩
    · exact ⟨"server ", " sockets closed", rfl⟩
    · exact ⟨"server ", " received an error " ++ err,
        String.append_assoc _ _ _⟩
  · simp [mstep, hprobe]

theorem C3_terminal_failure_dispatch_witness :
    ((⟨some true, .mainL, 30, false⟩ : MState).listeners = .mainL) ∧
    (MEv.poolConnectOK ∉ [MEv.timerFire]) ∧
    ((⟨some false, .probeL, 29, false⟩ : MState).listeners = .probeL) ∧
    (Act.destroyPool ∈ (mstep ⟨"localhost", 27017, true, 30, false, false⟩
        ⟨some true, .mainL, 30, false⟩ (.poolFail .timeoutK "t")).2 ∧
     Act.flushCallbacks (failureFlushMsg ⟨"localhost", 27017, true, 30, false,
        false⟩ .timeoutK "t") ∈
       (mstep ⟨"localhost", 27017, true, 30, false, false⟩
        ⟨some true, .mainL, 30, false⟩ (.poolFail .timeoutK "t")).2 ∧
     (∃ pre post, failureFlushMsg ⟨"localhost", 27017, true, 30, false, false⟩
        .timeoutK "t" = pre ++
          Config.name ⟨"localhost", 27017, true, 30, false, false⟩ ++ post) ∧
     (Act.scheduleReconnect ∈ (mstep ⟨"localhost", 27017, true, 30, false,
        false⟩ ⟨some true, .mainL, 30, false⟩ (.poolFail .timeoutK "t")).2 ↔
       (⟨"localhost", 27017, true, 30, false, false⟩ : Config).reconnect
         = true) ∧
     isConnected (mstep ⟨"localhost", 27017, true, 30, false, false⟩
        ⟨some true, .mainL, 30, false⟩ (.poolFail .timeoutK "t")).1 = false ∧
     isConnected (mrun ⟨"localhost", 27017, true, 30, false, false⟩
        (mstep ⟨"localhost", 27017, true, 30, false, false⟩
          ⟨some true, .mainL, 30, false⟩ (.poolFail .timeoutK "t")).1
        [MEv.timerFire]).1 = false ∧
     (mstep ⟨"localhost", 27017, true, 30, false, false⟩
        ⟨some false, .probeL, 29, false⟩ .poolConnectOK).1.listeners
       = .mainL) :=
  ⟨rfl, by decide, rfl,
   C3_terminal_failure_dispatch ⟨"localhost", 27017, true, 30, false, false⟩
     .timeoutK "t" ⟨some true, .mainL, 30, false⟩
     ⟨some false, .probeL, 29, false⟩ [MEv.timerFire] rfl (by decide) rfl⟩

/-! ### C10: fatal-parse versus generic error handler -/

/-- Discriminates the `self.emit('error', ...)` action. -/
def isErrorEmit : Act → Bool
  | .emitEv (.errorE _) => true
  | _ => false

/-- C10: `fatalErrorHandler` always emits the `error` event, while
`errorHandler` emits it exactly when `emitError` is configured; the two
handlers produce the same successor state and, apart from that error
emission, the identical action sequence (same strategy notification, destroy,
flush message and reconnect scheduling). -/
theorem C10_fatal_always_emits (cfg : Config) (err : String) (st : MState) :
    (errorHandler cfg err st).1 = (fatalErrorHandler cfg err st).1 ∧
    Act.emitEv (SEvent.errorE err) ∈ (fatalErrorHandler cfg err st).2 ∧
    (Act.emitEv (SEvent.errorE err) ∈ (errorHandler cfg err st).2 ↔
      cfg.emitError = true) ∧
    (errorHandler cfg err st).2.filter (fun a => !isErrorEmit a) =
      (fatalErrorHandler cfg err st).2.filter (fun a => !isErrorEmit a) := by
  cases hrc : cfg.reconnect <;> cases he : cfg.emitError <;>
    cases hs : cfg.hasStrategies <;>
    simp [errorHandler, fatalErrorHandler, hrc, he, hs, isErrorEmit,
      List.filter]

/-! ## Capability negotiation (`connectHandler`, lines 235-266)

`connectHandler` issues `{ismaster: true}` against `system.$cmd`; on a
command failure it emits `close`; on success it requires
`typeof ismaster.minWireVersion == 'number'`, emitting
`new MongoError("non supported server version")` as an `error` event
otherwise; then (after `applyAuthentications`, whose providers are assumed —
per the spec's AuthProvider capability set — to invoke their continuations)
it emits `connect` directly when `readPreferenceStrategies` is `null`, and
otherwise via `notifyStrategies('connect', [self], callback)`.

`notifyStrategies` with a callback (lines 350-368) initialises a countdown
`nPreferences` with the number of *all* registered strategies, but only the
strategies that implement the hook are invoked and given a decrementing
completion continuation (each hook is assumed to call it); the callback
fires only if the countdown reaches zero. -/

/-- A JavaScript field value, enough to express the dynamic
`typeof v != 'number'` check. -/
inductive JsValue where
  | jsNum (n : Int)
  | jsStr (s : String)
  | jsBool (b : Bool)
  | jsNull
  deriving DecidableEq, Repr

/-- `typeof v == 'number'`. -/
def JsValue.isNumber : JsValue → Bool
  | .jsNum _ => true
  | _ => false

/-- The fields of the ismaster capability document that `connectHandler`
consults: `minWireVersion` (`none` when the field is absent) and the
canonical self-identification `me`. -/
structure IsMasterDoc where
  minWireVersion : Option JsValue
  me : Option String
  deriving DecidableEq, Repr

/-- `typeof ismaster.minWireVersion == 'number'` (line 247): an absent field
has `typeof` `'undefined'`. -/
def minWireVersionIsNumber (d : IsMasterDoc) : Bool :=
  match d.minWireVersion with
  | some v => v.isNumber
  | none => false

/-- Whether the completion callback handed to
`notifyStrategies(op, params, callback)` (lines 350-368) ever fires, given
for each registered strategy whether it implements the hook: `nPreferences`
starts at the total number of strategies and is decremented once per
strategy that implements the hook, so it reaches zero only when every
strategy implements it (or there are none, line 353). -/
def notifyCallbackFires (strats : List Bool) : Bool :=
  strats.length == 0 || strats.length == (strats.filter id).length

/-- `connectHandler` (lines 235-266) as a function of the ismaster reply:
returns the emitted server events and the resulting `serverDetails.name`
(`strats` is `none` when `readPreferenceStrategies` is `null`, otherwise the
list of registered strategies, each flagged with whether it implements the
`connect` hook). -/
def connectHandler (strats : Option (List Bool)) (name : String)
    (reply : Except String IsMasterDoc) : List SEvent × String :=
  match reply with
  | .error e => ([SEvent.closeE e], name)
  | .ok doc =>
      if ¬minWireVersionIsNumber doc then
        ([SEvent.errorE "non supported server version"], name)
      else
        let name' := match doc.me with
          | some m => m
          | none => name
        match strats with
        | none => ([SEvent.connectE], name')
        | some l =>
            if notifyCallbackFires l then ([SEvent.connectE], name')
            else ([], name')

/-- C4 counterexample: when the capability document lacks a numeric
`minWireVersion`, the error event the code emits carries the message
`non supported server version` — not the claim's quoted
`unsupported server version` — while indeed no readiness event is emitted. -/
theorem C4_counterexample :
    (connectHandler none "localhost:27017"
        (.ok ⟨none, none⟩)).1 = [SEvent.errorE "non supported server version"] ∧
    SEvent.errorE "unsupported server version" ∉
      (connectHandler none "localhost:27017" (.ok ⟨none, none⟩)).1 ∧
    SEvent.connectE ∉
      (connectHandler none "localhost:27017" (.ok ⟨none, none⟩)).1 := by
  refine ⟨rfl, ?_, ?_⟩ <;> decide

/-- C4 (amended): a capability response whose `minWireVersion` field is
absent or not a number makes the negotiator emit exactly one error event,
with message `non supported server version`, and no `connect` (readiness)
event for that attempt. -/
theorem C4_missing_wire_version (strats : Option (List Bool)) (name : String)
    (doc : IsMasterDoc) (h : minWireVersionIsNumber doc = false) :
    (connectHandler strats name (.ok doc)).1 =
      [SEvent.errorE "non supported server version"] ∧
    SEvent.connectE ∉ (connectHandler strats name (.ok doc)).1 := by
  constructor
  · simp [connectHandler, h]
  · simp [connectHandler, h]

theorem C4_missing_wire_version_witness :
    (minWireVersionIsNumber ⟨some (JsValue.jsStr "2"), none⟩ = false) ∧
    ((connectHandler (some [true]) "h:1"
        (.ok ⟨some (JsValue.jsStr "2"), none⟩)).1 =
      [SEvent.errorE "non supported server version"] ∧
     SEvent.connectE ∉ (connectHandler (some [true]) "h:1"
        (.ok ⟨some (JsValue.jsStr "2"), none⟩)).1) :=
  ⟨rfl, C4_missing_wire_version (some [true]) "h:1"
    ⟨some (JsValue.jsStr "2"), none⟩ rfl⟩

/-- C7 (refutation by evaluation): with one registered read-preference
strategy that does not implement the `connect` hook, a successful
negotiation emits no event at all — `nPreferences` starts at 1 but nothing
ever decrements it, so the completion callback never runs and the `connect`
readiness event is never emitted; whereas with no strategies registered, or
with all strategies implementing the hook, readiness is emitted. -/
theorem C7_hookless_strategy_never_ready :
    (connectHandler (some [false]) "localhost:27017"
        (.ok ⟨some (JsValue.jsNum 0), none⟩)).1 = [] ∧
    (connectHandler none "localhost:27017"
        (.ok ⟨some (JsValue.jsNum 0), none⟩)).1 = [SEvent.connectE] ∧
    (connectHandler (some [true, true]) "localhost:27017"
        (.ok ⟨some (JsValue.jsNum 0), none⟩)).1 = [SEvent.connectE] := by
  refine ⟨rfl, rfl, rfl⟩

/-! ## Command dispatch (`Server.command`, lines 372-421) -/

/-- The read-preference argument of `command`: absent, a proper
`ReadPreference` instance (carrying its `slaveOk()` answer), or a truthy
value that is not a `ReadPreference` instance. -/
inductive ReadPrefArg where
  | noPref
  | properPref (slaveOk : Bool)
  | improperPref
  deriving DecidableEq, Repr

/-- The synchronous outcome of one `command` call: a synchronous throw, an
immediate single error callback with nothing registered, or a registration
of the continuation in the callback registry under the query's request id
(with the query's `slaveOk` flag, line 402, from `slaveOk(r)` of lines
526-529) followed by the wire write. -/
inductive CmdOutcome where
  | threw (msg : String)
  | immediateErr (msg : String)
  | registered (requestId : Nat) (slaveOk : Bool)
  deriving DecidableEq, Repr

/-- `Server.command` (lines 372-421).  The read-preference type check (line
381) throws synchronously.  Line 391 then reads `pool.isConnected()`
directly on the `pool` variable: before the first `connect()` call `pool` is
still `null` (line 96), so the call throws a `TypeError` — it never reaches
the `no connection available` callback.  With an existing but unconnected
pool the continuation is called back once, immediately, with
`no connection available to server <host:port>`, and nothing is registered;
with a connected pool the continuation is registered under the query's
request id and the query is written. -/
def command (name : String) (pool : Option Bool) (readPref : ReadPrefArg)
    (requestId : Nat) : CmdOutcome :=
  if readPref = .improperPref then
    .threw "readPreference must be an instance of ReadPreference"
  else
    match pool with
    | none => .threw "TypeError: cannot read isConnected of null"
    | some connected =>
        if ¬connected then
          .immediateErr ("no connection available to server " ++ name)
        else
          .registered requestId
            (match readPref with
              | .properPref s => s
              | _ => false)

/-- How many times the caller's continuation is invoked synchronously by the
`command` call itself (a registered continuation is invoked later, through
the callback registry). -/
def commandCallbackInvocations : CmdOutcome → Nat
  | .threw _ => 0
  | .immediateErr _ => 1
  | .registered _ _ => 0

/-- How many entries the `command` call adds to the callback registry. -/
def commandRegistrations : CmdOutcome → Nat
  | .threw _ => 0
  | .immediateErr _ => 0
  | .registered _ _ => 1

/-- C5 counterexample: before the first `connect()` has ever been called the
pool is `null`, and `command` throws a `TypeError` at `pool.isConnected()`
(line 391) — the continuation never receives the claimed
`no connection available` failure (it is invoked zero times). -/
theorem C5_counterexample :
    command "localhost:27017" none .noPref 1 =
      .threw "TypeError: cannot read isConnected of null" ∧
    commandCallbackInvocations (command "localhost:27017" none .noPref 1) = 0 ∧
    (∀ m, command "localhost:27017" none .noPref 1 ≠ .immediateErr m) := by
  refine ⟨rfl, rfl, ?_⟩
  intro m
  simp [command]

/-- C5 (amended): while a pool exists but is not connected, every `command`
call (with a well-typed read preference) immediately invokes the
continuation exactly once with the `no connection available to server
host:port` failure and adds nothing to the callback registry; before the
first `connect()` (pool still `null`) the call instead throws and the
continuation is invoked zero times. -/
theorem C5_not_connected_immediate_failure (name : String)
    (readPref : ReadPrefArg) (requestId : Nat)
    (h : readPref ≠ .improperPref) :
    command name (some false) readPref requestId =
      .immediateErr ("no connection available to server " ++ name) ∧
    commandCallbackInvocations (command name (some false) readPref requestId)
      = 1 ∧
    commandRegistrations (command name (some false) readPref requestId) = 0 ∧
    command name none readPref requestId =
      .threw "TypeError: cannot read isConnected of null" ∧
    commandCallbackInvocations (command name none readPref requestId) = 0 := by
  have hif : (readPref = ReadPrefArg.improperPref) = False :=
    eq_false h
  refine ⟨?_, ?_, ?_, ?_, ?_⟩ <;>
    simp [command, hif, commandCallbackInvocations, commandRegistrations]

theorem C5_not_connected_immediate_failure_witness :
    ((ReadPrefArg.noPref ≠ ReadPrefArg.improperPref)) ∧
    (command "localhost:27017" (some false) .noPref 1 =
        .immediateErr ("no connection available to server " ++ "localhost:27017") ∧
      commandCallbackInvocations
        (command "localhost:27017" (some false) .noPref 1) = 1 ∧
      commandRegistrations
        (command "localhost:27017" (some false) .noPref 1) = 0 ∧
      command "localhost:27017" none .noPref 1 =
        .threw "TypeError: cannot read isConnected of null" ∧
      commandCallbackInvocations (command "localhost:27017" none .noPref 1)
        = 0) :=
  ⟨by decide,
   C5_not_connected_immediate_failure "localhost:27017" .noPref 1 (by decide)⟩

/-! ## Write operations (`executeWrite`, lines 313-334; `insert` / `update` /
`remove`, lines 424-436) -/

/-- A write-concern document (opaque to `executeWrite`, which only passes it
through). -/
structure WriteConcernDoc where
  entries : List (String × Int)
  deriving DecidableEq, Repr

/-- The options consulted by `executeWrite`: `ordered` and `writeConcern`,
each possibly absent. -/
structure WriteOptions where
  ordered : Option Bool := none
  writeConcern : Option WriteConcernDoc := none
  deriving DecidableEq, Repr

/-- The assembled write command skeleton (lines 326-330):
`writeCommand[type] = p[1]`, `writeCommand[opsField] = ops`,
`writeCommand.ordered`, `writeCommand.writeConcern`. -/
structure WriteCommand (δ : Type) where
  typeField : String
  collection : String
  opsField : String
  ops : List δ
  ordered : Bool
  writeConcern : WriteConcernDoc
  deriving DecidableEq, Repr

/-- JavaScript `v || d` for a boolean-or-absent `v` (line 323,
`options.ordered || true`): `false` and `undefined` are both falsy, so
either falls through to the default. -/
def jsOrBool (v : Option Bool) (d : Bool) : Bool :=
  match v with
  | some b => if b then b else d
  | none => d

/-- `executeWrite` (lines 313-334): throws (`Except.error`) when given zero
operations — before the namespace split, before the command is assembled and
before the delegation to `command` at line 333, hence before any network
write or registry entry; otherwise returns the command namespace
`p[0] + ".$cmd"` and the assembled write command.  (JS `p[1]` is `undefined`
when the namespace has no dot; we model the absent piece as `""` — no claim
depends on it.) -/
def executeWrite {δ : Type} (type opsField ns : String) (ops : List δ)
    (opts : WriteOptions) : Except String (String × WriteCommand δ) :=
  if ops.length = 0 then
    .error "insert must contain at least one document"
  else
    let p := ns.splitOn "."
    let ordered := jsOrBool opts.ordered true
    let writeConcern := opts.writeConcern.getD ⟨[]⟩
    .ok ((p.getD 0 "") ++ ".$cmd",
      { typeField := type
        collection := p.getD 1 ""
        opsField := opsField
        ops := ops
        ordered := ordered
        writeConcern := writeConcern })

/-- `Server.insert` (lines 424-426). -/
def insert {δ : Type} (ns : String) (ops : List δ) (opts : WriteOptions) :
    Except String (String × WriteCommand δ) :=
  executeWrite "insert" "documents" ns ops opts

/-- `Server.update` (lines 429-431). -/
def update {δ : Type} (ns : String) (ops : List δ) (opts : WriteOptions) :
    Except String (String × WriteCommand δ) :=
  executeWrite "update" "updates" ns ops opts

/-- `Server.remove` (lines 434-436). -/
def remove {δ : Type} (ns : String) (ops : List δ) (opts : WriteOptions) :
    Except String (String × WriteCommand δ) :=
  executeWrite "delete" "deletes" ns ops opts

theorem jsOrBool_true (v : Option Bool) : jsOrBool v true = true := by
  cases v with
  | none => rfl
  | some b => cases b <;> rfl

/-- C6 counterexample: a caller-supplied `ordered: false` is *not* honoured —
`options.ordered || true` (line 323) evaluates to `true` because `false` is
falsy, so the assembled command carries `ordered: true`. -/
theorem C6_counterexample :
    (insert "db.coll" ([0] : List Nat)
        ⟨some false, none⟩).toOption.map (fun r => r.2.ordered) = some true ∧
    (some true : Option Bool) ≠ some false := by
  exact ⟨rfl, by decide⟩

/-- C6 (amended): for every nonempty insert / update / remove, the assembled
write command's `ordered` field is `true` regardless of the caller-supplied
boolean (the truthy default `options.ordered || true` makes `false`
indistinguishable from unset), and the caller-supplied `writeConcern` is
passed through unchanged, defaulting to the empty document. -/
theorem C6_ordered_always_true (δ : Type) (ns : String) (ops : List δ)
    (opts : WriteOptions) (h : ops.length ≠ 0) :
    (∃ r, insert ns ops opts = .ok r ∧ r.2.ordered = true ∧
      r.2.writeConcern = opts.writeConcern.getD ⟨[]⟩) ∧
    (∃ r, update ns ops opts = .ok r ∧ r.2.ordered = true ∧
      r.2.writeConcern = opts.writeConcern.getD ⟨[]⟩) ∧
    (∃ r, remove ns ops opts = .ok r ∧ r.2.ordered = true ∧
      r.2.writeConcern = opts.writeConcern.getD ⟨[]⟩) := by
  have hw : ∀ type opsField : String,
      executeWrite type opsField ns ops opts =
        .ok (((ns.splitOn ".").getD 0 "") ++ ".$cmd",
          ⟨type, (ns.splitOn ".").getD 1 "", opsField, ops,
            jsOrBool opts.ordered true, opts.writeConcern.getD ⟨[]⟩⟩) := by
    intro type opsField
    unfold executeWrite
    rw [if_neg h]
  exact ⟨⟨_, hw "insert" "documents", jsOrBool_true _, rfl⟩,
    ⟨_, hw "update" "updates", jsOrBool_true _, rfl⟩,
    ⟨_, hw "delete" "deletes", jsOrBool_true _, rfl⟩⟩

theorem C6_ordered_always_true_witness :
    (([1] : List Nat).length ≠ 0) ∧
    ((∃ r, insert "db.coll" ([1] : List Nat)
        ⟨some false, some ⟨[("w", 1)]⟩⟩ = .ok r ∧ r.2.ordered = true ∧
        r.2.writeConcern =
          (WriteOptions.mk (some false) (some ⟨[("w", 1)]⟩)).writeConcern.getD
            ⟨[]⟩) ∧
     (∃ r, update "db.coll" ([1] : List Nat)
        ⟨some false, some ⟨[("w", 1)]⟩⟩ = .ok r ∧ r.2.ordered = true ∧
        r.2.writeConcern =
          (WriteOptions.mk (some false) (some ⟨[("w", 1)]⟩)).writeConcern.getD
            ⟨[]⟩) ∧
     (∃ r, remove "db.coll" ([1] : List Nat)
        ⟨some false, some ⟨[("w", 1)]⟩⟩ = .ok r ∧ r.2.ordered = true ∧
        r.2.writeConcern =
          (WriteOptions.mk (some false) (some ⟨[("w", 1)]⟩)).writeConcern.getD
            ⟨[]⟩)) :=
  ⟨by decide,
   C6_ordered_always_true Nat "db.coll" [1] ⟨some false, some ⟨[("w", 1)]⟩⟩
     (by decide)⟩

/-- C9: each of `insert`, `update` and `remove`, given an empty operations
array, throws synchronously (line 314) — the `Except.error` is produced
before the write command is assembled and before the delegation to `command`
(line 333), hence before any network interaction and without adding any
entry to the callback registry. -/
theorem C9_empty_ops_throw (δ : Type) (ns : String) (opts : WriteOptions) :
    insert ns ([] : List δ) opts =
      .error "insert must contain at least one document" ∧
    update ns ([] : List δ) opts =
      .error "insert must contain at least one document" ∧
    remove ns ([] : List δ) opts =
      .error "insert must contain at least one document" :=
  ⟨rfl, rfl, rfl⟩

end MongoCore
